import Mathlib

/-!
Verification of the job-application-confirmation email tracker
(`gmail_search.py`, `main.py`, `sheets_io.py`).

Strings are modelled as Lean `String` / `List Char`.  Python's substring
test `needle in haystack` is modelled by `substrIn`; `str.lower()` by a
character-wise `Char.toLower` map; `re.sub(r"\s+", " ", s).strip()` by
`collapseWs` followed by `pyStrip`.  The regular-expression patterns used
by the field extractors are modelled by a small executable backtracking
matcher (`mrun`) over a deep-embedded pattern type `RE`, whose result
list is ordered by the backtracking priority of Python's `re` module
(leftmost start, alternation left first, greedy/lazy quantifier order),
so that `reSearchG1` returns exactly what `re.search(...).group(1)` returns.
External collaborators (the Gmail fetch API and the timezone/date
conversion of `iso_date_from_internal`) are modelled as components of an
explicit environment record `Env`.
-/

/-- Python's substring test `needle in haystack` on character lists
(true for the empty needle, as in Python). -/
def substrIn (needle : List Char) : List Char → Bool
  | [] => needle.isEmpty
  | c :: t => needle.isPrefixOf (c :: t) || substrIn needle t

/-- The set of characters matched by Python's `\s` (and stripped by
`str.strip()`) for text strings: ASCII whitespace plus the Unicode
whitespace characters. -/
def isPySpace (c : Char) : Bool :=
  ([' ', '\t', '\n', '\x0b', '\x0c', '\x0d',
    '\x1c', '\x1d', '\x1e', '\x1f', '\x85', '\xa0',
    '\u1680', '\u2000', '\u2001', '\u2002', '\u2003', '\u2004', '\u2005',
    '\u2006', '\u2007', '\u2008', '\u2009', '\u200A',
    '\u2028', '\u2029', '\u202F', '\u205F', '\u3000'] : List Char).contains c

/-- `re.sub(r"\s+", " ", s)`: replace every maximal run of whitespace by a
single space.  The boolean argument records whether the previous character
belonged to a whitespace run. -/
def collapseAux : Bool → List Char → List Char
  | _, [] => []
  | inWs, c :: rest =>
    if isPySpace c then
      if inWs then collapseAux true rest
      else ' ' :: collapseAux true rest
    else c :: collapseAux false rest

def collapseWs (l : List Char) : List Char := collapseAux false l

/-- Python `str.strip()`: drop leading and trailing whitespace. -/
def pyStrip (l : List Char) : List Char :=
  ((l.dropWhile isPySpace).reverse.dropWhile isPySpace).reverse

/-- `gmail_search.normalize_space`: `re.sub(r"\s+", " ", s or "").strip()`
(`s or ""` treats a missing input as the empty string, which is also the
value `""` itself maps to). -/
def normalize_space (s : String) : String :=
  String.mk (pyStrip (collapseWs s.toList))

/-- Character-wise `str.lower()`. -/
def lowerL (s : String) : List Char := s.toList.map Char.toLower

/-- `gmail_search.CONFIRMATION_KEYWORDS` (the inclusion-term list). -/
def CONFIRMATION_KEYWORDS : List String := [
  "application received",
  "application submitted",
  "application confirmation",
  "submission received",
  "submission confirmed",
  "application acknowledgment",
  "application acknowledgement",
  "thanks for applying",
  "thank you for applying",
  "thanks for your application",
  "thank you for your application",
  "thanks for submitting",
  "thank you for submitting",
  "thank you for your interest",
  "thanks for your interest",
  "we received your application",
  "we\x27ve received your application",
  "we have received your application",
  "your application was received",
  "received your application for",
  "your application has been received",
  "application successfully received",
  "you successfully applied",
  "you\x27ve successfully applied",
  "successfully submitted",
  "application complete",
  "submission complete",
  "application was successful",
  "your application was sent",
  "application was sent",
  "your application has been sent",
  "application sent to",
  "forwarded your application",
  "application forwarded to",
  "we confirm your application",
  "this confirms your application",
  "confirming your application",
  "application on file",
  "your application to",
  "your application for the position",
  "your application for the role",
  "your profile has been submitted",
  "profile submitted successfully",
  "application in our system",
  "added to our candidate pool",
  "candidate profile received",
  "application is being reviewed",
  "we\x27ll review your application",
  "reviewing your application",
  "your candidacy",
  "thank you for your candidacy",
  "application has been submitted",
  "your profile has been shared",
  "profile shared with",
  "application delivered",
  "your interest in",
  "your application was viewed",
  "application viewed by"]

/-- `gmail_search.EXCLUSION_KEYWORDS` (the full, module-level exclusion
list; the classifier's decision never reads it). -/
def EXCLUSION_KEYWORDS : List String := [
  "regret to inform",
  "unfortunately",
  "not selected",
  "not moving forward",
  "we are moving forward with other candidates",
  "decided not to move forward",
  "position has been filled",
  "no longer considering",
  "will not be moving forward",
  "technical assessment",
  "coding challenge",
  "hackerrank",
  "codility",
  "codesignal",
  "phone screen scheduled",
  "interview scheduled",
  "interview invitation",
  "unsubscribe",
  "newsletter",
  "talent community",
  "talent network",
  "subscribe to",
  "email preferences",
  "marketing",
  "background check",
  "offer letter",
  "employment offer",
  "salary negotiation",
  "start date",
  "survey",
  "feedback request"]

/-- The `strong_exclusions` list local to `contains_confirmation`. -/
def strong_exclusions : List String := [
  "regret to inform", "unfortunately", "not selected", "not moving forward",
  "position has been filled", "no longer considering", "unsubscribe",
  "newsletter", "background check", "offer letter", "employment offer"]

/-- The short high-confidence subject phrase list checked against the
subject alone inside `contains_confirmation`. -/
def subject_conf_keywords : List String := [
  "application received", "application submitted", "thanks for applying",
  "thank you for applying", "application confirmation", "submission received"]

/-- The combined search text `f"{subject_lower}\n{body_lower}"`. -/
def textOf (subject body_snippet : String) : List Char :=
  lowerL subject ++ '\n' :: lowerL body_snippet

/-- `gmail_search.contains_confirmation`. -/
def contains_confirmation (subject body_snippet : String) : Bool :=
  let subject_lower := lowerL subject
  let text := textOf subject body_snippet
  let has_conf := CONFIRMATION_KEYWORDS.any (fun k => substrIn k.toList text)
  let has_strong_excl := strong_exclusions.any (fun k => substrIn k.toList text)
  let subject_has_conf :=
    subject_conf_keywords.any (fun k => substrIn k.toList subject_lower)
  if subject_has_conf && !has_strong_excl then true
  else has_conf && !has_strong_excl

/-- `gmail_search.gmail_query_since`: ignores its `days_back` argument and
returns the fixed query `after:2025/01/01`. -/
def gmail_query_since (days_back : Int) : String :=
  "after:2025/01/01"

/-- The ten-element `search_queries` list built in
`main.search_confirmation_messages` from `base_query = gmail_query_since
lookback_days`. -/
def search_queries (lookback_days : Int) : List String :=
  let base_query := gmail_query_since lookback_days
  [ base_query ++ " (\"application received\" OR \"application submitted\" OR \"submission received\" OR \"application confirmation\")",
    base_query ++ " (\"thanks for applying\" OR \"thank you for applying\" OR \"thanks for your application\" OR \"thank you for your application\")",
    base_query ++ " (\"we received your application\" OR \"received your application\" OR \"your application has been received\")",
    base_query ++ " (\"successfully applied\" OR \"successfully submitted\" OR \"application complete\" OR \"submission complete\")",
    base_query ++ " (\"your application to\" OR \"your application for\" OR \"confirming your application\")",
    base_query ++ " (from:noreply OR from:no-reply OR from:careers OR from:recruiting OR from:talent OR from:jobs) (application OR applied OR submit)",
    base_query ++ " (from:greenhouse OR from:workday OR from:lever OR from:smartrecruiters OR from:icims OR from:successfactors)",
    base_query ++ " subject:(application OR applied OR submission) (received OR submitted OR confirmation OR thank)",
    base_query ++ " (\"your profile has been submitted\" OR \"profile submitted\" OR \"candidate profile\" OR \"added to our candidate pool\")",
    base_query ++ " (\"application is being reviewed\" OR \"reviewing your application\" OR \"your candidacy\")"]

/-- Deep embedding of the regular-expression constructs used by the
extraction patterns.  Every `*`/`+`/`*?` quantifier in the source patterns
applies to a single-character class, which `starCls`/`starClsLazy`
exploit: a star over a class matches some number of consecutive
class characters, tried greedily (longest first) or lazily (shortest
first). -/
inductive RE where
  | eps : RE
  | cls : (Char → Bool) → RE
  | seq : RE → RE → RE
  | alt : RE → RE → RE
  | opt : RE → RE
  | starCls : (Char → Bool) → RE
  | starClsLazy : (Char → Bool) → RE
  | group : RE → RE
  | wordB : RE

/-- Length of the run of characters satisfying `p` starting at `i`. -/
def starRun (text : List Char) (p : Char → Bool) (i : Nat) : Nat :=
  ((text.drop i).takeWhile p).length

/-- A word character for `\b`: `[A-Za-z0-9_]`. -/
def isWordChar (c : Char) : Bool := c.isAlphanum || c == '_'

/-- Python's `\b`: position `i` lies between a word character and a
non-word character (the ends of the text count as non-word). -/
def isWordBoundary (text : List Char) (i : Nat) : Bool :=
  let before := match i with
    | 0 => false
    | j + 1 => match text[j]? with
      | some c => isWordChar c
      | none => false
  let after := match text[i]? with
    | some c => isWordChar c
    | none => false
  before != after

/-- Backtracking matcher.  `mrun text re i cap` returns the list of
`(end-position, capture-span)` pairs of all ways `re` can match `text`
starting at position `i`, ordered by the backtracking priority of
Python's `re` engine (the head is the match `re.search` commits to at
this start position).  `cap` is the span captured so far by group 1. -/
def mrun (text : List Char) : RE → Nat → Option (Nat × Nat) → List (Nat × Option (Nat × Nat))
  | .eps, i, cap => [(i, cap)]
  | .cls p, i, cap =>
    match text[i]? with
    | some c => if p c then [(i + 1, cap)] else []
    | none => []
  | .seq a b, i, cap => (mrun text a i cap).flatMap (fun x => mrun text b x.1 x.2)
  | .alt a b, i, cap => mrun text a i cap ++ mrun text b i cap
  | .opt a, i, cap => mrun text a i cap ++ [(i, cap)]
  | .starCls p, i, cap =>
    ((List.range' i (starRun text p i + 1)).reverse).map (fun j => (j, cap))
  | .starClsLazy p, i, cap =>
    (List.range' i (starRun text p i + 1)).map (fun j => (j, cap))
  | .group a, i, cap => (mrun text a i cap).map (fun x => (x.1, some (i, x.1)))
  | .wordB, i, cap => if isWordBoundary text i then [(i, cap)] else []

/-- The substring of `text` captured by span `ij`. -/
def capSpan (text : List Char) (ij : Nat × Nat) : List Char :=
  (text.drop ij.1).take (ij.2 - ij.1)

/-- `re.search(pat, text)` followed by `.group(1)`: the first start
position (leftmost) at which the pattern matches wins, and at that
position the priority-first match is taken.  `none` means no match;
`some none` means a match whose group 1 did not participate. -/
def reSearchG1 (re : RE) (text : List Char) : Option (Option (List Char)) :=
  (List.range (text.length + 1)).findSome? (fun s =>
    match mrun text re s none with
    | [] => none
    | x :: _ => some (x.2.map (capSpan text)))

/-- `re.match(pat, text)` followed by `.group(1)`: anchored at position 0. -/
def reMatchG1 (re : RE) (text : List Char) : Option (Option (List Char)) :=
  match mrun text re 0 none with
  | [] => none
  | x :: _ => some (x.2.map (capSpan text))

/-- Span `(start, end)` of the leftmost match of `re` in `text` at or
after the first of the given start positions. -/
def searchSpan (re : RE) (text : List Char) : List Nat → Option (Nat × Nat)
  | [] => none
  | s :: rest =>
    match mrun text re s none with
    | [] => searchSpan re text rest
    | x :: _ => some (s, x.1)

/-- Worker for `re.sub(pat, "", text)`: repeatedly find the leftmost
match from position `p` on and drop it.  The fuel argument only
guarantees termination; `text.length + 1` always suffices because every
step either consumes a nonempty match or advances one character. -/
def subAllAux (re : RE) (text : List Char) : Nat → Nat → List Char
  | 0, p => text.drop p
  | fuel + 1, p =>
    match searchSpan re text (List.range' p (text.length + 1 - p)) with
    | none => text.drop p
    | some (s, e) =>
      ((text.drop p).take (s - p)) ++
        (if s < e then subAllAux re text fuel e
         else match text[s]? with
           | some c => c :: subAllAux re text fuel (s + 1)
           | none => [])

/-- `re.sub(pat, "", text)`: remove every match of `pat`. -/
def reSubEmpty (re : RE) (text : List Char) : List Char :=
  subAllAux re text (text.length + 1) 0

/-- A case-insensitive literal character (`re.IGNORECASE`; the pattern
character is written in lower case). -/
def litc (c : Char) : RE := RE.cls (fun x => x.toLower == c)

/-- A case-insensitive literal string. -/
def lit (s : String) : RE := (s.toList.map litc).foldr RE.seq RE.eps

/-- Sequencing of a pattern list. -/
def seqL (l : List RE) : RE := l.foldr RE.seq RE.eps

/-- Alternation of a pattern list, tried left to right. -/
def altL : List RE → RE
  | [] => RE.cls (fun _ => false)
  | [r] => r
  | r :: rest => RE.alt r (altL rest)

/-- Greedy `+` over a character class. -/
def plusC (p : Char → Bool) : RE := RE.seq (RE.cls p) (RE.starCls p)

/-- `\s*`. -/
def wsStar : RE := RE.starCls isPySpace

/-- `\s+`. -/
def wsPlus : RE := plusC isPySpace

/-- Exactly `n` repetitions of a character class. -/
def repExactC : Nat → (Char → Bool) → RE
  | 0, _ => RE.eps
  | n + 1, p => RE.seq (RE.cls p) (repExactC n p)

/-- Greedily up to `n` repetitions of a character class (most first). -/
def uptoC : Nat → (Char → Bool) → RE
  | 0, _ => RE.eps
  | n + 1, p => RE.opt (RE.seq (RE.cls p) (uptoC n p))

/-- Greedy `{m,n}` over a character class. -/
def repRangeC (m n : Nat) (p : Char → Bool) : RE :=
  RE.seq (repExactC m p) (uptoC (n - m) p)

/-- `[A-Za-z0-9\-_/]` (the job-id character class). -/
def jobIdChar (c : Char) : Bool :=
  c.isAlphanum || c == '-' || c == '_' || c == '/'

/-- `[A-Za-z0-9 .,&'()+\-_/]`, which is also `[A-Za-z0-9 \-_/&()+.,']`
(the company/role character class of the extraction patterns). -/
def nameChar (c : Char) : Bool :=
  c.isAlphanum || ([' ', '.', ',', '&', '\x27', '(', ')', '+', '-', '_', '/'] : List Char).contains c

/-- `[:#]?`. -/
def colonHashOpt : RE := RE.opt (RE.cls (fun c => c == ':' || c == '#'))

/-- `[:\-]` (used with `\s*` in the role patterns). -/
def colonDash : RE := RE.cls (fun c => c == ':' || c == '-')

/-- `.` (any character except a newline; no `DOTALL`). -/
def dotC (c : Char) : Bool := !(c == '\n')

/-- `gmail_search.JOB_ID_PATTERNS`, in priority order: labeled ids, the
generic `(id: X)` form, compact letter-dash-digit codes, bare 6+ digit
runs. -/
def JOB_ID_PATTERNS : List RE := [
  seqL [altL [seqL [lit "job", wsStar, lit "id"],
              seqL [lit "requisition", wsStar, lit "id"],
              seqL [lit "req", RE.opt (lit "uisition"), wsStar, RE.opt (litc '#')],
              lit "jr", lit "r-"],
        wsStar, colonHashOpt, wsStar, RE.group (plusC jobIdChar)],
  seqL [RE.opt (litc '('), altL [lit "id", lit "job"],
        wsStar, colonHashOpt, wsStar, RE.group (plusC jobIdChar), RE.opt (litc ')')],
  seqL [RE.wordB,
        RE.group (seqL [repRangeC 1 4 Char.isAlpha, litc '-', repRangeC 3 8 Char.isDigit]),
        RE.wordB],
  seqL [RE.wordB, RE.group (RE.seq (repExactC 6 Char.isDigit) (RE.starCls Char.isDigit)),
        RE.wordB]]

/-- `gmail_search.COMPANY_PATTERNS`. -/
def COMPANY_PATTERNS : List RE := [
  seqL [lit "your application to ", RE.group (plusC nameChar)],
  seqL [lit "application with ", RE.group (plusC nameChar)],
  seqL [lit "application received ", altL [lit "at", lit "by"], wsPlus,
        RE.group (plusC nameChar)],
  seqL [lit "application ", altL [lit "to", lit "at", lit "with"], wsPlus,
        RE.group (plusC nameChar)],
  seqL [lit "thank you for ", RE.opt (lit "your "),
        altL [lit "interest in", lit "applying to", lit "applying at"], wsPlus,
        RE.group (plusC nameChar)],
  seqL [lit "thanks for ", RE.opt (lit "your "),
        altL [lit "interest in", lit "applying to", lit "applying at"], wsPlus,
        RE.group (plusC nameChar)],
  seqL [altL [lit "we", lit "team"], litc ' ', altL [lit "at", lit "from"], wsPlus,
        RE.group (plusC nameChar), wsPlus, altL [lit "received", lit "confirm"]],
  seqL [RE.group (plusC nameChar), wsPlus,
        altL [lit "team", lit "recruiting", lit "talent", lit "careers"]]]

/-- `gmail_search.ROLE_PATTERNS`. -/
def ROLE_PATTERNS : List RE := [
  seqL [altL [lit "for",
              seqL [lit "position", RE.opt (seqL [wsStar, lit "title"])],
              seqL [lit "role", RE.opt (seqL [wsStar, lit "title"])],
              seqL [lit "applying", wsStar, lit "for"]],
        wsStar, RE.opt colonDash, wsStar, RE.opt (litc '"'),
        RE.group (plusC nameChar), RE.opt (litc '"')],
  seqL [lit "your application to ", RE.starClsLazy dotC, lit " for ",
        RE.group (plusC nameChar)],
  seqL [lit "application received - ", RE.group (plusC nameChar)],
  seqL [lit "application for ", RE.opt (seqL [lit "the", wsPlus]),
        RE.opt (seqL [lit "position", wsPlus, lit "of", wsPlus]),
        RE.group (plusC nameChar)],
  seqL [altL [lit "intern", lit "internship"], RE.starClsLazy dotC,
        altL [lit "position", lit "role"], RE.starClsLazy dotC,
        colonDash, wsStar, RE.group (plusC nameChar)],
  seqL [RE.group (seqL [RE.starCls nameChar, lit "intern", RE.starCls nameChar]),
        wsStar, altL [lit "position", lit "role", lit "application"]],
  seqL [altL [lit "summer", lit "spring", lit "fall", lit "winter"], wsPlus,
        RE.opt (seqL [lit "20", repExactC 2 Char.isDigit, wsPlus]),
        RE.group (seqL [RE.starCls nameChar, lit "intern", RE.starCls nameChar])],
  seqL [lit "job", wsStar, lit "title", wsStar, colonDash, wsStar,
        RE.group (plusC nameChar)],
  seqL [lit "role", wsStar, colonDash, wsStar, RE.group (plusC nameChar)],
  seqL [lit "position", wsStar, colonDash, wsStar, RE.group (plusC nameChar)]]

/-- The subject-only fallback pattern of `extract_role`:
`application.*?[-:]\s*([A-Za-z0-9 \-_/&()+.,']+)`. -/
def role_fallback_pattern : RE :=
  seqL [lit "application", RE.starClsLazy dotC,
        RE.cls (fun c => c == '-' || c == ':'), wsStar, RE.group (plusC nameChar)]

/-- The role-noise words stripped from the sender name in
`extract_company`: `\b(careers|recruiting|talent acquisition|hiring|noreply|no-reply)\b`. -/
def noise_pattern : RE :=
  seqL [RE.wordB,
        RE.group (altL [lit "careers", lit "recruiting", lit "talent acquisition",
                        lit "hiring", lit "noreply", lit "no-reply"]),
        RE.wordB]

/-- The ATS-vendor markers stripped from the sender name in
`extract_company`:
`\b(workday|greenhouse|lever|smartrecruiters|icims|successfactors|bamboohr)\b`. -/
def vendor_pattern : RE :=
  seqL [RE.wordB,
        RE.group (altL [lit "workday", lit "greenhouse", lit "lever",
                        lit "smartrecruiters", lit "icims", lit "successfactors",
                        lit "bamboohr"]),
        RE.wordB]

/-- The display-name pattern of `main.parse_from_header`:
`\"?([^\"<]+)\"?\s*<[^>]+>` (matched with `re.match`, no flags). -/
def from_name_pattern : RE :=
  seqL [RE.opt (RE.cls (fun c => c == '"')),
        RE.group (plusC (fun c => !(c == '"' || c == '<'))),
        RE.opt (RE.cls (fun c => c == '"')), wsStar,
        RE.cls (fun c => c == '<'), plusC (fun c => !(c == '>')),
        RE.cls (fun c => c == '>')]

/-- Search the patterns in order; the first pattern that matches anywhere
in the text yields its group 1 (the empty list when the group did not
participate, as `normalize_space(None)` also yields `""`). -/
def firstGroupMatch : List RE → List Char → Option (List Char)
  | [], _ => none
  | p :: rest, text =>
    match reSearchG1 p text with
    | some g => some (g.getD [])
    | none => firstGroupMatch rest text

/-- `gmail_search.extract_job_id`. -/
def extract_job_id (subject body_snippet : String) : Option String :=
  let text := subject.toList ++ '\n' :: body_snippet.toList
  match firstGroupMatch JOB_ID_PATTERNS text with
  | some g => some (normalize_space (String.mk g))
  | none => none

/-- `gmail_search.extract_role`. -/
def extract_role (subject body_snippet : String) : Option String :=
  let text := subject.toList ++ '\n' :: body_snippet.toList
  match firstGroupMatch ROLE_PATTERNS text with
  | some g => some (normalize_space (String.mk g))
  | none =>
    match reSearchG1 role_fallback_pattern subject.toList with
    | some g => some (normalize_space (String.mk (g.getD [])))
    | none => none

/-- `gmail_search.extract_company`: subject patterns first, then the
sender display name with role-noise and ATS-vendor words removed. -/
def extract_company (subject from_header_name : String) : String :=
  match firstGroupMatch COMPANY_PATTERNS subject.toList with
  | some g => normalize_space (String.mk g)
  | none =>
    let company := from_header_name.toList
    let company := reSubEmpty noise_pattern company
    let company := reSubEmpty vendor_pattern company
    normalize_space (String.mk company)

/-- `main.parse_from_header`. -/
def parse_from_header (from_header : String) : String :=
  match reMatchG1 from_name_pattern from_header.toList with
  | some g => normalize_space (String.mk (g.getD []))
  | none => normalize_space from_header

/-- `main.build_thread_url`. -/
def build_thread_url (thread_id : String) : String :=
  "https://mail.google.com/mail/u/0/#inbox/" ++ thread_id

/-- The metadata of a candidate message as fetched by
`gmail.users().messages().get(format="metadata")` in `main.main`:
selected headers, snippet, thread identifier and the received timestamp
(`internalDate`, milliseconds since the epoch). -/
structure MsgMeta where
  subject : String
  fromHeader : String
  snippet : String
  threadId : String
  internalDate : Int

/-- The external collaborators of one run of `main.main`, as pure
functions fixed for the run (the mailbox is unchanged during and between
the runs compared here).  `fetchMeta` models the metadata fetch (`none`
is a raised `HttpError`/`Exception`, caught by the per-message handler);
`fetchFullBody` models the full-content fetch composed with
`extract_body_content` (`none` is a raised exception, caught by the
inner handler); `isoDate` models `iso_date_from_internal` at the
configured timezone (an external datetime/timezone computation). -/
structure Env where
  fetchMeta : String → Option MsgMeta
  fetchFullBody : String → Option String
  isoDate : Int → String

/-- The broad "promising subject" keyword list of `main.main`. -/
def promising_keywords : List String :=
  ["application", "applied", "submission", "thank", "received", "confirmation"]

/-- The classification phase of `main.main` for one message: classify on
the snippet; if negative and the subject is nonempty and promising,
fetch the full body and classify on its first 1000 characters, a fetch
failure counting as negative. -/
def classifyMessage (env : Env) (mid : String) (msg : MsgMeta) : Bool :=
  let is_confirmation := contains_confirmation msg.subject msg.snippet
  if !is_confirmation && !(msg.subject == "") then
    let subject_lower := lowerL msg.subject
    if promising_keywords.any (fun k => substrIn k.toList subject_lower) then
      match env.fetchFullBody mid with
      | some full_body =>
        contains_confirmation msg.subject (String.mk (full_body.toList.take 1000))
      | none => false
    else is_confirmation
  else is_confirmation

/-- The row staged for the applications sheet by `main.main`:
`[company, role, job_id, date_applied, thread_url, from_header, subject, mid]`. -/
def buildRow (env : Env) (mid : String) (msg : MsgMeta) : List String :=
  let from_name := parse_from_header msg.fromHeader
  let date_applied := env.isoDate msg.internalDate
  let company := extract_company msg.subject from_name
  let job_id := (extract_job_id msg.subject msg.snippet).getD ""
  let role := (extract_role msg.subject msg.snippet).getD ""
  [company, role, job_id, date_applied, build_thread_url msg.threadId,
   msg.fromHeader, msg.subject, mid]

/-- One iteration of the candidate loop of `main.main`: `none` when the
message is skipped (already processed, fetch error, or classified
negative), `some row` when a record is staged for it. -/
def processMessage (env : Env) (processed_ids : List String) (mid : String) :
    Option (List String) :=
  if mid ∈ processed_ids then none
  else
    match env.fetchMeta mid with
    | none => none
    | some msg =>
      if classifyMessage env mid msg then some (buildRow env mid msg) else none

/-- The two in-memory batches `new_rows` and `just_processed` built by
the candidate loop of `main.main`. -/
structure RunResult where
  new_rows : List (List String)
  just_processed : List String

/-- The candidate loop of `main.main` over the deduplicated candidate
identifiers, appending in iteration order. -/
def mainLoop (env : Env) (processed_ids : List String) : List String → RunResult
  | [] => ⟨[], []⟩
  | mid :: rest =>
    match processMessage env processed_ids mid with
    | none => mainLoop env processed_ids rest
    | some row =>
      let r := mainLoop env processed_ids rest
      ⟨row :: r.new_rows, mid :: r.just_processed⟩

/-! ### Basic facts about the substring test -/

theorem substrIn_iff (n h : List Char) : substrIn n h = true ↔ n <:+: h := by
  induction h with
  | nil => simp [substrIn, List.isEmpty_iff, List.infix_nil]
  | cons c t ih =>
    simp [substrIn, Bool.or_eq_true, ih, List.infix_cons_iff,
      List.isPrefixOf_iff_prefix]

theorem substrIn_append_right (n l r : List Char) (h : substrIn n l = true) :
    substrIn n (l ++ r) = true := by
  rw [substrIn_iff] at h ⊢
  exact h.trans ( List.prefix_append l r).isInfix

/-! ### The classifier -/

/-- Boolean characterization of `contains_confirmation`: the two-branch
`if` collapses to a disjunction of the subject short-circuit and the
general inclusion test, each guarded by the absence of strong
exclusions. -/
theorem contains_confirmation_eq (subject body_snippet : String) :
    contains_confirmation subject body_snippet =
      ((subject_conf_keywords.any (fun k => substrIn k.toList (lowerL subject)) &&
          !(strong_exclusions.any
              (fun k => substrIn k.toList (textOf subject body_snippet)))) ||
        (CONFIRMATION_KEYWORDS.any
            (fun k => substrIn k.toList (textOf subject body_snippet)) &&
          !(strong_exclusions.any
              (fun k => substrIn k.toList (textOf subject body_snippet))))) := by
  have hb : ∀ a b c : Bool,
      (if a && !b then true else c && !b) = ((a && !b) || (c && !b)) := by
    intro a b c
    cases a <;> cases b <;> cases c <;> rfl
  unfold contains_confirmation
  exact hb _ _ _

theorem contains_confirmation_false_of_strong (subject body_snippet : String)
    (h : strong_exclusions.any
      (fun k => substrIn k.toList (textOf subject body_snippet)) = true) :
    contains_confirmation subject body_snippet = false := by
  rw [contains_confirmation_eq, h]
  simp only [Bool.not_true, Bool.and_false, Bool.or_self]

theorem subject_conf_subset :
    ∀ k ∈ subject_conf_keywords, k ∈ CONFIRMATION_KEYWORDS := by decide

/-- C2: whenever the combined lower-cased text contains an inclusion
keyword and a strong-exclusion keyword, `contains_confirmation` is
false; and for the subject "Unfortunately, we will not be moving forward
with your application" it is false whatever the body excerpt is. -/
theorem strong_exclusion_overrides :
    (∀ subject body_snippet : String,
        (∃ k ∈ CONFIRMATION_KEYWORDS,
            substrIn k.toList (textOf subject body_snippet) = true) →
        (∃ k ∈ strong_exclusions,
            substrIn k.toList (textOf subject body_snippet) = true) →
        contains_confirmation subject body_snippet = false) ∧
    (∀ body_snippet : String,
        contains_confirmation
          "Unfortunately, we will not be moving forward with your application"
          body_snippet = false) := by
  constructor
  · intro subject body _ hex
    exact contains_confirmation_false_of_strong _ _ (List.any_eq_true.mpr hex)
  · intro body
    apply contains_confirmation_false_of_strong
    apply List.any_eq_true.mpr
    refine ⟨"unfortunately", by decide, ?_⟩
    show substrIn "unfortunately".toList
      (lowerL "Unfortunately, we will not be moving forward with your application"
        ++ '\n' :: lowerL body) = true
    exact substrIn_append_right _ _ _ (by decide)

/-- Witness for C2 at a concrete subject/body pair containing both an
inclusion term and a strong-exclusion term. -/
theorem strong_exclusion_overrides_witness :
    contains_confirmation "Thank you for applying" "Unfortunately we chose others"
      = false :=
  strong_exclusion_overrides.1 "Thank you for applying" "Unfortunately we chose others"
    ⟨"thank you for applying", by decide, by decide⟩
    ⟨"unfortunately", by decide, by decide⟩

/-- C3: with no inclusion keyword anywhere in the combined lower-cased
text the classifier is false, whatever exclusion content is present; in
particular it is false on the empty subject and empty body excerpt. -/
theorem no_inclusion_never_confirms :
    (∀ subject body_snippet : String,
        (∀ k ∈ CONFIRMATION_KEYWORDS,
            substrIn k.toList (textOf subject body_snippet) = false) →
        contains_confirmation subject body_snippet = false) ∧
    contains_confirmation "" "" = false := by
  constructor
  · intro subject body h
    have hconf : CONFIRMATION_KEYWORDS.any
        (fun k => substrIn k.toList (textOf subject body)) = false :=
      List.any_eq_false.mpr (fun k hk => by rw [h k hk]; exact Bool.false_ne_true)
    have hsubj : subject_conf_keywords.any
        (fun k => substrIn k.toList (lowerL subject)) = false := by
      apply List.any_eq_false.mpr
      intro k hk habs
      have htext : substrIn k.toList (textOf subject body) = true :=
        substrIn_append_right _ _ _ habs
      rw [h k (subject_conf_subset k hk)] at htext
      exact Bool.false_ne_true htext
    rw [contains_confirmation_eq, hconf, hsubj]
    simp only [Bool.false_and, Bool.or_self]
  · decide

/-- Witness for C3 at a concrete inclusion-free subject/body pair that
does contain exclusion terms. -/
theorem no_inclusion_never_confirms_witness :
    contains_confirmation "Hello world" "unfortunately a newsletter survey" = false :=
  no_inclusion_never_confirms.1 "Hello world" "unfortunately a newsletter survey"
    (by decide)

/-- C4: a high-confidence phrase in the lower-cased subject alone plus
the absence of every strong-exclusion term in the combined text forces
the classifier to true, whatever the body content. -/
theorem subject_confirmation_shortcircuit (subject body_snippet : String)
    (hsub : ∃ k ∈ subject_conf_keywords, substrIn k.toList (lowerL subject) = true)
    (hex : ∀ k ∈ strong_exclusions,
        substrIn k.toList (textOf subject body_snippet) = false) :
    contains_confirmation subject body_snippet = true := by
  have h1 : subject_conf_keywords.any
      (fun k => substrIn k.toList (lowerL subject)) = true :=
    List.any_eq_true.mpr hsub
  have h2 : strong_exclusions.any
      (fun k => substrIn k.toList (textOf subject body_snippet)) = false :=
    List.any_eq_false.mpr (fun k hk => by rw [hex k hk]; exact Bool.false_ne_true)
  rw [contains_confirmation_eq, h1, h2]
  simp only [Bool.not_false, Bool.and_true, Bool.true_or]

/-- Witness for C4: high-confidence subject phrase, arbitrary body with
no strong-exclusion term. -/
theorem subject_confirmation_shortcircuit_witness :
    contains_confirmation "Re: Application Received" "We will be in touch" = true :=
  subject_confirmation_shortcircuit "Re: Application Received" "We will be in touch"
    ⟨"application received", by decide, by decide⟩ (by decide)

/-- C9: the decision only consults the eleven-element hard-coded
`strong_exclusions` subset of `EXCLUSION_KEYWORDS`: an inclusion term
plus the absence of all eleven strong-exclusion strings forces true,
regardless of any other member of `EXCLUSION_KEYWORDS` in the text. -/
theorem exclusion_list_not_consulted :
    (∀ k ∈ strong_exclusions, k ∈ EXCLUSION_KEYWORDS) ∧
    strong_exclusions.length = 11 ∧
    (∀ subject body_snippet : String,
      (∃ k ∈ CONFIRMATION_KEYWORDS,
          substrIn k.toList (textOf subject body_snippet) = true) →
      (∀ k ∈ strong_exclusions,
          substrIn k.toList (textOf subject body_snippet) = false) →
      contains_confirmation subject body_snippet = true) := by
  refine ⟨by decide, by decide, ?_⟩
  intro subject body hconf hex
  have h1 : CONFIRMATION_KEYWORDS.any
      (fun k => substrIn k.toList (textOf subject body)) = true :=
    List.any_eq_true.mpr hconf
  have h2 : strong_exclusions.any
      (fun k => substrIn k.toList (textOf subject body)) = false :=
    List.any_eq_false.mpr (fun k hk => by rw [hex k hk]; exact Bool.false_ne_true)
  rw [contains_confirmation_eq, h1, h2]
  simp only [Bool.not_false, Bool.and_true, Bool.or_true]

/-- Witness for C9: the text contains the non-strong exclusion keywords
"interview scheduled", "coding challenge", "talent community" and
"survey", yet the classifier returns true. -/
theorem exclusion_list_not_consulted_witness :
    contains_confirmation "Thank you for applying"
      "Next: interview scheduled, coding challenge, talent community, survey." = true ∧
    "interview scheduled" ∈ EXCLUSION_KEYWORDS ∧
    "interview scheduled" ∉ strong_exclusions ∧
    substrIn "interview scheduled".toList
      (textOf "Thank you for applying"
        "Next: interview scheduled, coding challenge, talent community, survey.")
      = true :=
  ⟨exclusion_list_not_consulted.2.2 "Thank you for applying"
      "Next: interview scheduled, coding challenge, talent community, survey."
      ⟨"thank you for applying", by decide, by decide⟩ (by decide),
   by decide, by decide, by decide⟩

/-! ### The text normalizer -/

/-- Invariant relation for collapsed text: a whitespace character is
never immediately followed by another whitespace character. -/
def noWsPair (a b : Char) : Prop := isPySpace a = true → isPySpace b = false

theorem collapseAux_cons_ws_true (a : Char) (t : List Char) (ha : isPySpace a = true) :
    collapseAux true (a :: t) = collapseAux true t := by
  simp [collapseAux, ha]

theorem collapseAux_cons_ws_false (a : Char) (t : List Char) (ha : isPySpace a = true) :
    collapseAux false (a :: t) = ' ' :: collapseAux true t := by
  simp [collapseAux, ha]

theorem collapseAux_cons_nws (b : Bool) (a : Char) (t : List Char)
    (ha : isPySpace a = false) :
    collapseAux b (a :: t) = a :: collapseAux false t := by
  cases b <;> simp [collapseAux, ha]

theorem collapseAux_true_head (l : List Char) :
    ∀ c, (collapseAux true l).head? = some c → isPySpace c = false := by
  induction l with
  | nil => intro c h; simp [collapseAux] at h
  | cons a t ih =>
    intro c h
    cases ha : isPySpace a with
    | true =>
      rw [collapseAux_cons_ws_true a t ha] at h
      exact ih c h
    | false =>
      rw [collapseAux_cons_nws true a t ha, List.head?_cons] at h
      cases h
      exact ha

theorem collapseAux_chain (l : List Char) :
    ∀ b, List.Chain' noWsPair (collapseAux b l) := by
  induction l with
  | nil => intro b; simp [collapseAux, List.chain'_nil]
  | cons a t ih =>
    intro b
    cases ha : isPySpace a with
    | true =>
      cases b
      · rw [collapseAux_cons_ws_false a t ha, List.chain'_cons']
        refine ⟨?_, ih true⟩
        intro y hy _
        exact collapseAux_true_head t y hy
      · rw [collapseAux_cons_ws_true a t ha]
        exact ih true
    | false =>
      rw [collapseAux_cons_nws b a t ha, List.chain'_cons']
      refine ⟨?_, ih false⟩
      intro y _ habs
      rw [habs] at ha
      cases ha

theorem collapseAux_mem_space (l : List Char) :
    ∀ b c, c ∈ collapseAux b l → isPySpace c = true → c = ' ' := by
  induction l with
  | nil => intro b c h; simp [collapseAux] at h
  | cons a t ih =>
    intro b c h hws
    cases ha : isPySpace a with
    | true =>
      cases b
      · rw [collapseAux_cons_ws_false a t ha] at h
        rcases List.mem_cons.mp h with h1 | h2
        · exact h1
        · exact ih true c h2 hws
      · rw [collapseAux_cons_ws_true a t ha] at h
        exact ih true c h hws
    | false =>
      rw [collapseAux_cons_nws b a t ha] at h
      rcases List.mem_cons.mp h with h1 | h2
      · rw [h1] at hws
        rw [hws] at ha
        cases ha
      · exact ih false c h2 hws

theorem pyStrip_prefix_dropWhile (l : List Char) :
    pyStrip l <+: l.dropWhile isPySpace := by
  unfold pyStrip
  rw [← List.reverse_suffix, List.reverse_reverse]
  exact List.dropWhile_suffix _

theorem pyStrip_isInfix (l : List Char) : pyStrip l <:+: l :=
  (pyStrip_prefix_dropWhile l).isInfix.trans (List.dropWhile_suffix _).isInfix

theorem head?_dropWhile_false (p : Char → Bool) (l : List Char) :
    ∀ c, (l.dropWhile p).head? = some c → p c = false := by
  induction l with
  | nil => intro c h; simp at h
  | cons a t ih =>
    intro c h
    cases ha : p a with
    | true =>
      rw [List.dropWhile_cons, if_pos ha] at h
      exact ih c h
    | false =>
      rw [List.dropWhile_cons, if_neg (by simp [ha]), List.head?_cons] at h
      cases h
      exact ha

theorem pyStrip_head (l : List Char) :
    ∀ c, (pyStrip l).head? = some c → isPySpace c = false := by
  intro c h
  obtain ⟨t, ht⟩ := pyStrip_prefix_dropWhile l
  cases hp : pyStrip l with
  | nil => rw [hp] at h; simp at h
  | cons x xs =>
    rw [hp] at h ht
    rw [List.head?_cons] at h
    apply head?_dropWhile_false isPySpace l c
    rw [← ht, List.cons_append, List.head?_cons, h]

theorem getLast?_reverse_eq (l : List Char) : l.reverse.getLast? = l.head? := by
  rw [← List.head?_reverse, List.reverse_reverse]

theorem pyStrip_last (l : List Char) :
    ∀ c, (pyStrip l).getLast? = some c → isPySpace c = false := by
  intro c h
  unfold pyStrip at h
  rw [getLast?_reverse_eq] at h
  exact head?_dropWhile_false isPySpace _ c h

theorem collapseAux_false_fixed (l : List Char)
    (hchain : List.Chain' noWsPair l)
    (hmem : ∀ c ∈ l, isPySpace c = true → c = ' ') :
    collapseAux false l = l := by
  induction l with
  | nil => rfl
  | cons a t ih =>
    rw [List.chain'_cons'] at hchain
    obtain ⟨hR, hchain'⟩ := hchain
    have hmem' : ∀ c ∈ t, isPySpace c = true → c = ' ' :=
      fun c hc => hmem c (List.mem_cons_of_mem _ hc)
    cases ha : isPySpace a with
    | true =>
      have ha' : a = ' ' := hmem a (List.mem_cons_self _ _) ha
      have htail : collapseAux true t = collapseAux false t := by
        cases t with
        | nil => rfl
        | cons d t' =>
          have hd : isPySpace d = false := hR d rfl ha
          rw [collapseAux_cons_nws true d t' hd, collapseAux_cons_nws false d t' hd]
      rw [collapseAux_cons_ws_false a t ha, htail, ih hchain' hmem', ha']
    | false =>
      rw [collapseAux_cons_nws false a t ha, ih hchain' hmem']

theorem dropWhile_eq_self_of_head (p : Char → Bool) (l : List Char)
    (h : ∀ c, l.head? = some c → p c = false) : l.dropWhile p = l := by
  cases l with
  | nil => rfl
  | cons a t => rw [List.dropWhile_cons, if_neg (by simp [h a rfl])]

theorem pyStrip_fixed (l : List Char)
    (hhead : ∀ c, l.head? = some c → isPySpace c = false)
    (hlast : ∀ c, l.getLast? = some c → isPySpace c = false) :
    pyStrip l = l := by
  unfold pyStrip
  rw [dropWhile_eq_self_of_head _ _ hhead,
    dropWhile_eq_self_of_head _ _
      (fun c hc => hlast c (by rw [← List.head?_reverse]; exact hc)),
    List.reverse_reverse]

/-- C5: the output of `normalize_space` contains no two consecutive
space characters and neither starts nor ends with whitespace, and
`normalize_space` is idempotent. -/
theorem normalize_space_normalized (s : String) :
    substrIn [' ', ' '] (normalize_space s).toList = false ∧
    (normalize_space s).toList.head?.all (fun c => !(isPySpace c)) = true ∧
    (normalize_space s).toList.getLast?.all (fun c => !(isPySpace c)) = true ∧
    normalize_space (normalize_space s) = normalize_space s := by
  have hout : (normalize_space s).toList = pyStrip (collapseWs s.toList) := rfl
  have hchain : List.Chain' noWsPair (pyStrip (collapseWs s.toList)) :=
    List.Chain'.infix (collapseAux_chain s.toList false) (pyStrip_isInfix _)
  have hmem : ∀ c ∈ pyStrip (collapseWs s.toList), isPySpace c = true → c = ' ' :=
    fun c hc => collapseAux_mem_space s.toList false c
      ((pyStrip_isInfix _).sublist.subset hc)
  have hhead := pyStrip_head (collapseWs s.toList)
  have hlast := pyStrip_last (collapseWs s.toList)
  refine ⟨?_, ?_, ?_, ?_⟩
  · rw [hout]
    cases hval : substrIn [' ', ' '] (pyStrip (collapseWs s.toList)) with
    | false => rfl
    | true =>
      have hinf := (substrIn_iff _ _).mp hval
      have hcc := List.Chain'.infix hchain hinf
      rw [List.chain'_cons'] at hcc
      have hfalse := hcc.1 ' ' rfl (by decide)
      exact absurd hfalse (by decide)
  · rw [hout]
    cases hh : (pyStrip (collapseWs s.toList)).head? with
    | none => rfl
    | some c =>
      show (!(isPySpace c)) = true
      rw [hhead c hh]
      rfl
  · rw [hout]
    cases hh : (pyStrip (collapseWs s.toList)).getLast? with
    | none => rfl
    | some c =>
      show (!(isPySpace c)) = true
      rw [hlast c hh]
      rfl
  · show String.mk (pyStrip (collapseWs (normalize_space s).toList)) = normalize_space s
    rw [hout]
    show String.mk (pyStrip (collapseAux false (pyStrip (collapseWs s.toList))))
        = normalize_space s
    rw [collapseAux_false_fixed _ hchain hmem, pyStrip_fixed _ hhead hlast]
    rfl

/-! ### The query builder -/

/-- Counterexample to C1 as stated: two different configured lookback
values yield the same date restriction, because `gmail_query_since`
ignores its argument. -/
theorem gmail_query_since_not_injective :
    (1 : Int) ≠ 2 ∧ gmail_query_since 1 = gmail_query_since 2 :=
  ⟨by decide, rfl⟩

/-- C1 (amended): the base query is the constant `after:2025/01/01`
(messages from January 1, 2025 onward), independent of the configured
lookback-window value, and the whole ten-query fan-out list is likewise
independent of it. -/
theorem gmail_query_since_constant :
    (∀ days_back : Int, gmail_query_since days_back = "after:2025/01/01") ∧
    (∀ d1 d2 : Int, search_queries d1 = search_queries d2) :=
  ⟨fun _ => rfl, fun _ _ => rfl⟩

/-! ### The job-identifier extractor -/

set_option maxRecDepth 10000

/-- C7: on the text "Requisition ID: R-2025-0456" — whether it stands in
the subject (with empty body) or in the body (with empty subject) — the
labeled requisition pattern matches first and its captured group
"R-2025-0456" is returned, not the bare-digit fallback's. -/
theorem extract_job_id_requisition :
    extract_job_id "Requisition ID: R-2025-0456" "" = some "R-2025-0456" ∧
    extract_job_id "" "Requisition ID: R-2025-0456" = some "R-2025-0456" :=
  ⟨by decide, by decide⟩

/-! ### The ingestion workflow -/

theorem mainLoop_just_processed (env : Env) (p ids : List String) :
    (mainLoop env p ids).just_processed
      = ids.filter (fun m => (processMessage env p m).isSome) := by
  induction ids with
  | nil => rfl
  | cons mid rest ih =>
    cases h : processMessage env p mid with
    | none => simp [mainLoop, h, List.filter_cons, ih]
    | some row => simp [mainLoop, h, List.filter_cons, ih]

theorem mainLoop_new_rows (env : Env) (p ids : List String) :
    (mainLoop env p ids).new_rows = ids.filterMap (processMessage env p) := by
  induction ids with
  | nil => rfl
  | cons mid rest ih =>
    cases h : processMessage env p mid with
    | none => simp [mainLoop, h, List.filterMap_cons, ih]
    | some row => simp [mainLoop, h, List.filterMap_cons, ih]

theorem processMessage_row_last (env : Env) (p : List String) (mid : String)
    (row : List String) (h : processMessage env p mid = some row) :
    row.getLast? = some mid := by
  unfold processMessage at h
  by_cases hm : mid ∈ p
  · rw [if_pos hm] at h
    cases h
  · rw [if_neg hm] at h
    cases hf : env.fetchMeta mid with
    | none =>
      rw [hf] at h
      cases h
    | some msg =>
      rw [hf] at h
      have h' : (if classifyMessage env mid msg = true
          then some (buildRow env mid msg) else none) = some row := h
      by_cases hc : classifyMessage env mid msg = true
      · rw [if_pos hc] at h'
        cases h'
        rfl
      · rw [if_neg hc] at h'
        cases h'

theorem processMessage_none_of_mem (env : Env) (p : List String) (mid : String)
    (h : mid ∈ p) : processMessage env p mid = none := by
  unfold processMessage
  rw [if_pos h]

theorem processMessage_indep (env : Env) (p q : List String) (mid : String)
    (hp : mid ∉ p) (hq : mid ∉ q) :
    processMessage env p mid = processMessage env q mid := by
  unfold processMessage
  rw [if_neg hp, if_neg hq]

theorem mem_just_processed_of_some (env : Env) (p ids : List String) (mid : String)
    (hmem : mid ∈ ids) (h : processMessage env p mid ≠ none) :
    mid ∈ (mainLoop env p ids).just_processed := by
  rw [mainLoop_just_processed]
  exact List.mem_filter.mpr ⟨hmem, Option.isSome_iff_ne_none.mpr h⟩

theorem mainLoop_nil_of_none (env : Env) (p ids : List String)
    (h : ∀ mid ∈ ids, processMessage env p mid = none) :
    mainLoop env p ids = ⟨[], []⟩ := by
  induction ids with
  | nil => rfl
  | cons mid rest ih =>
    simp [mainLoop, h mid (List.mem_cons_self _ _),
      ih (fun m hm => h m (List.mem_cons_of_mem _ hm))]

theorem not_recorded_of_skip (env : Env) (p ids : List String)
    (mid : String) (hnone : processMessage env p mid = none) :
    mid ∉ (mainLoop env p ids).just_processed ∧
    ∀ row ∈ (mainLoop env p ids).new_rows, row.getLast? ≠ some mid := by
  constructor
  · intro hc
    rw [mainLoop_just_processed] at hc
    have hs := (List.mem_filter.mp hc).2
    rw [hnone] at hs
    cases hs
  · intro row hrow hlast
    rw [mainLoop_new_rows] at hrow
    obtain ⟨a, ha, hfa⟩ := List.mem_filterMap.mp hrow
    have hal := processMessage_row_last env p a row hfa
    rw [hlast] at hal
    cases hal
    rw [hnone] at hfa
    cases hfa

/-- C8: re-running the loop against the unchanged mailbox with the
processed set extended by exactly the identifiers recorded by the first
run yields no new record rows and no newly-processed identifiers; and an
identifier already in the processed set is never recorded again (it
lands in neither batch of any run). -/
theorem second_run_empty :
    (∀ (env : Env) (processed_ids ids : List String),
      mainLoop env
        (processed_ids ++ (mainLoop env processed_ids ids).just_processed) ids
        = ⟨[], []⟩) ∧
    (∀ (env : Env) (processed_ids ids : List String) (mid : String),
      mid ∈ processed_ids →
      mid ∉ (mainLoop env processed_ids ids).just_processed ∧
      ∀ row ∈ (mainLoop env processed_ids ids).new_rows,
        row.getLast? ≠ some mid) := by
  constructor
  · intro env processed_ids ids
    apply mainLoop_nil_of_none
    intro mid hmem
    by_cases hq : mid ∈ processed_ids ++ (mainLoop env processed_ids ids).just_processed
    · exact processMessage_none_of_mem _ _ _ hq
    · have hp : mid ∉ processed_ids := fun hc => hq (List.mem_append_left _ hc)
      have hj : mid ∉ (mainLoop env processed_ids ids).just_processed :=
        fun hc => hq (List.mem_append_right _ hc)
      have hnone : processMessage env processed_ids mid = none := by
        by_contra hns
        exact hj (mem_just_processed_of_some env processed_ids ids mid hmem hns)
      rw [← processMessage_indep env processed_ids _ mid hp hq]
      exact hnone
  · intro env processed_ids ids mid hmem
    exact not_recorded_of_skip env processed_ids ids mid
      (processMessage_none_of_mem env processed_ids mid hmem)

/-- Witness for C8: a concrete second run over an unchanged mailbox is
empty, and a concretely pre-processed identifier is recorded in neither
batch. -/
theorem second_run_empty_witness :
    mainLoop ⟨fun _ => none, fun _ => none, fun _ => ""⟩
      ([] ++ (mainLoop ⟨fun _ => none, fun _ => none, fun _ => ""⟩
        [] ["m1"]).just_processed) ["m1"] = ⟨[], []⟩ ∧
    "m0" ∉ (mainLoop ⟨fun _ => none, fun _ => none, fun _ => ""⟩
      ["m0"] ["m0", "m1"]).just_processed :=
  ⟨second_run_empty.1 _ [] ["m1"],
   (second_run_empty.2 _ ["m0"] ["m0", "m1"] "m0" (by decide)).1⟩

/-- C10: throughout a run the two in-memory batches stay in lock-step:
they have equal length, and the message-identifier column (the last
entry) of the i-th staged row is exactly the i-th newly-processed
identifier.  Quantifying over every candidate list covers the state
after each handled message (run the loop on any prefix). -/
theorem batches_lockstep (env : Env) (processed_ids ids : List String) :
    (mainLoop env processed_ids ids).new_rows.length
      = (mainLoop env processed_ids ids).just_processed.length ∧
    (mainLoop env processed_ids ids).new_rows.map List.getLast?
      = (mainLoop env processed_ids ids).just_processed.map some := by
  have hmap : ∀ l : List String,
      (mainLoop env processed_ids l).new_rows.map List.getLast?
        = (mainLoop env processed_ids l).just_processed.map some := by
    intro l
    induction l with
    | nil => rfl
    | cons mid rest ih =>
      cases h : processMessage env processed_ids mid with
      | none => simp [mainLoop, h, ih]
      | some row =>
        simp [mainLoop, h, List.map_cons, ih,
          processMessage_row_last env processed_ids mid row h]
  refine ⟨?_, hmap ids⟩
  have hlen := congrArg List.length (hmap ids)
  simpa using hlen

/-- C6: an identifier whose metadata fetch raises is recorded in neither
batch: it is not among the newly-processed identifiers and no staged row
carries it in the message-identifier column. -/
theorem fetch_error_message_skipped (env : Env) (processed_ids ids : List String)
    (mid : String) (h : env.fetchMeta mid = none) :
    mid ∉ (mainLoop env processed_ids ids).just_processed ∧
    ∀ row ∈ (mainLoop env processed_ids ids).new_rows, row.getLast? ≠ some mid := by
  have hnone : processMessage env processed_ids mid = none := by
    unfold processMessage
    rw [h]
    simp
  exact not_recorded_of_skip env processed_ids ids mid hnone

/-- Witness for C6: a mailbox whose metadata fetches all fail; the run
records nothing for the failing identifier. -/
theorem fetch_error_message_skipped_witness :
    "m1" ∉ (mainLoop ⟨fun _ => none, fun _ => none, fun _ => ""⟩
        [] ["m1", "m2"]).just_processed ∧
    ∀ row ∈ (mainLoop ⟨fun _ => none, fun _ => none, fun _ => ""⟩
        [] ["m1", "m2"]).new_rows, row.getLast? ≠ some "m1" :=
  fetch_error_message_skipped ⟨fun _ => none, fun _ => none, fun _ => ""⟩
    [] ["m1", "m2"] "m1" rfl
